import Mathlib

/-!
Verification development for the crypto-chart plotter repository
(`src/chart.py` and its Spanish-identifier twin `src/grafico.py`).

The algorithmic content of the repository is embedded shallowly:

* `_get_optimal_interval` / `_calculo_intervalo_optimo` — the optimal-interval
  selector (`chart.py` lines 458-497, `grafico.py` lines 450-488);
* `__get_note_position_x` — the annotation horizontal-offset heuristic
  (`chart.py` lines 265-287);
* the `Chart` state with `add_buy_sell_point` and `delete_buy_sell_points`
  (`chart.py` lines 117-220) over a `Figure` of traces and annotations;
* the post-response part of `_get_ohlcv_data` (`chart.py` lines 447-455).

Modelling conventions:

* Python dicts are insertion-ordered association lists `List (String × _)`;
  where dict-ness (key uniqueness) matters, theorems carry a `Nodup`
  hypothesis on the keys.
* Python exceptions are `Option`/`Except`: `none` (or `.error`) marks a raised
  exception, never a returned value.
* Python float division of two ints is modelled as exact division in `ℚ`;
  pandas `Timestamp.value` is the integer count of nanoseconds since the epoch
  (`ℤ`), and `// 10 ** 9` is `Int.fdiv` (Python `//` floors).
* HTTP retrieval, date-string parsing, file export and browser automation are
  external collaborators and are not embedded; their already-decoded outputs
  (the decoded response mapping, parsed timestamps) are the inputs here.
-/

/-- A candle as delivered by the market-data endpoint: the JSON 6-tuple
`[time, open, high, low, close, volume]`, with `time` in POSIX seconds and the
prices and volume as rationals. -/
structure Candle where
  time : ℤ
  priceOpen : ℚ
  priceHigh : ℚ
  priceLow : ℚ
  priceClose : ℚ
  volume : ℚ
  deriving DecidableEq

/-- The target number of points of the selector: `optimal_size = 500` in
`_get_optimal_interval` (and `tamaño_optimo = 500` in the Spanish twin). -/
def optimal_size : ℕ := 500

/-- The comparison used by `sorted(intervals.items(), key=lambda x: x[1])`:
compare label/count pairs by their count. -/
def countLE (p q : String × ℕ) : Prop := p.2 ≤ q.2

instance : DecidableRel countLE := fun p q => inferInstanceAs (Decidable (p.2 ≤ q.2))

instance : IsTotal (String × ℕ) countLE := ⟨fun p q => Nat.le_total p.2 q.2⟩

instance : IsTrans (String × ℕ) countLE := ⟨fun _ _ _ h1 h2 => Nat.le_trans h1 h2⟩

/-- Sorting step `dict(sorted(intervals.items(), key=lambda x: x[1]))` of the
selector: the Python `sorted` builtin is a stable ascending sort on the count; insertion sort with the reflexive
count-`≤` relation has exactly that behaviour (stability is
`List.pair_sublist_insertionSort`). -/
def sortedIntervals (intervals : List (String × ℕ)) : List (String × ℕ) :=
  List.insertionSort countLE intervals

/-- Embeds `_get_optimal_interval(time, data)` of `chart.py` (lines 458-497).
The per-interval sizes `intervals[interval] = len(data["result"][interval])`
enter only through the label → count mapping, which is taken directly as the
`intervals` argument (see `bucketCounts` for the length computation).

Result encoding: `none` is the uncaught IndexError that
`list(sorted_intervals.items())[-1]` raises on an empty mapping; `some none` is
Python `None` (no interval found); `some (some s)` is the returned label `s`.
The Python truthiness test `if (time)` is the non-emptiness test on the string. -/
def _get_optimal_interval (time : String) (intervals : List (String × ℕ)) :
    Option (Option String) :=
  if time ≠ "" then some (some time)
  else
    let sorted_intervals := sortedIntervals intervals
    match sorted_intervals.find? (fun p => decide (optimal_size < p.2)) with
    | some p => some (some p.1)
    | none =>
      match sorted_intervals.getLast? with
      | none => none
      | some p => if p.2 = 0 then some none else some (some p.1)

/-- Embeds `_calculo_intervalo_optimo(tiempo, datos)` of `grafico.py`
(lines 450-488), transcribed from its own source text; the body is the
line-for-line Spanish twin of `_get_optimal_interval`, with
`tamaño_optimo = 500` and the same stable ascending sort by count. -/
def _calculo_intervalo_optimo (tiempo : String) (intervalos : List (String × ℕ)) :
    Option (Option String) :=
  if tiempo ≠ "" then some (some tiempo)
  else
    let intervalos_ordenados := List.insertionSort countLE intervalos
    match intervalos_ordenados.find? (fun p => decide (500 < p.2)) with
    | some p => some (some p.1)
    | none =>
      match intervalos_ordenados.getLast? with
      | none => none
      | some p => if p.2 = 0 then some none else some (some p.1)

/-- The size-collecting loop of `_get_optimal_interval`
(`for interval in data["result"]: intervals[interval] = len(...)`): each
interval label of the response mapped to its number of candles. -/
def bucketCounts (result : List (String × List Candle)) : List (String × ℕ) :=
  result.map fun p => (p.1, p.2.length)

/-- Failure outcomes of `_get_ohlcv_data` after a successful HTTP response:
`emptyDataset` is the raised "intervals in the response are empty" Exception,
`crash` is the uncaught IndexError of the selector on an empty mapping, and
`keyError` is `data["result"][optimal_interval]` with an absent key (reachable
only through a forced interval that is not in the response). -/
inductive FetchError where
  | emptyDataset
  | crash
  | keyError
  deriving DecidableEq

/-- Embeds the post-response part of `_get_ohlcv_data` (`chart.py` lines
447-455): run the selector on the decoded `data["result"]` mapping, raise when
it returns `None`, otherwise index the mapping at the selected label. The HTTP
request itself is an external collaborator and is not embedded. -/
def _get_ohlcv_data (interval : String) (result : List (String × List Candle)) :
    Except FetchError (List Candle) :=
  match _get_optimal_interval interval (bucketCounts result) with
  | none => .error .crash
  | some none => .error .emptyDataset
  | some (some lbl) =>
    match result.find? (fun p => p.1 == lbl) with
    | none => .error .keyError
    | some p => .ok p.2

/-- A Plotly trace held in `fig.data`: the candlestick trace, the volume bar
trace, or a single-point scatter marker appended by `add_buy_sell_point`.
Constant presentation styling (fonts, line widths, legends) is omitted; the
marker colour is kept because it depends on the buy/sell label. Date values
are pandas `Timestamp.value` nanoseconds. -/
inductive Trace where
  | candlestick (dates : List ℤ) (opens highs lows closes : List ℚ)
  | bar (dates : List ℤ) (values : List ℚ)
  | scatter (x : List ℤ) (y : List ℚ) (color : String)
  deriving DecidableEq

/-- The data content of one `fig.add_annotation` call in `add_buy_sell_point`:
anchor point `(x, y)`, the fields interpolated into the hover text (`label`,
`quantity`, `price`; the formatted string itself is presentation), and the
horizontal offset `ax` computed by `__get_note_position_x`. -/
structure Annot where
  x : ℤ
  y : ℚ
  label : String
  quantity : ℚ
  price : ℚ
  ax : ℤ
  deriving DecidableEq

/-- The mutable Plotly figure: the trace list `fig.data` and the annotation
list `fig.layout.annotations`. -/
structure Figure where
  data : List Trace
  annotations : List Annot
  deriving DecidableEq

/-- The `Chart` object state: the pair symbol, the start and end Timestamps
(as nanosecond values), and the figure. The file path and locale fields are
export glue and are omitted. -/
structure Chart where
  pair : String
  start_date : ℤ
  end_date : ℤ
  fig : Figure
  deriving DecidableEq

/-- Embeds `Chart.__create_figure(data)` (`chart.py` lines 308-368): a
two-trace figure, candlestick on top and volume bars below, both indexed by
the candle times (converted from POSIX seconds to Timestamp nanoseconds). -/
def __create_figure (data : List Candle) : Figure :=
  { data := [
      Trace.candlestick (data.map fun c => c.time * 10 ^ 9)
        (data.map Candle.priceOpen) (data.map Candle.priceHigh)
        (data.map Candle.priceLow) (data.map Candle.priceClose),
      Trace.bar (data.map fun c => c.time * 10 ^ 9) (data.map Candle.volume)],
    annotations := [] }

/-- The tail of `Chart.__init__` after the HTTP fetch and date parsing: record
the pair and the date range and build the two-trace figure from the fetched
candles. -/
def chartOfData (pair : String) (start_date end_date : ℤ) (data : List Candle) :
    Chart :=
  { pair := pair, start_date := start_date, end_date := end_date,
    fig := __create_figure data }

/-- Embeds `Chart.__get_note_position_x` (`chart.py` lines 265-287). The
method converts the two chart Timestamps and the point Timestamp to POSIX
seconds (`.value // 10 ** 9`) and then works only with those seconds; the
embedding takes the three POSIX-second values directly (the conversion is
applied at the call site in `add_buy_sell_point`). `none` is the uncaught
ZeroDivisionError of `point_difference / difference` on a degenerate range;
the float division is modelled as exact division in `ℚ`. -/
def __get_note_position_x (start_posix end_posix point_posix : ℤ) : Option ℤ :=
  let point_difference := end_posix - point_posix
  let difference := end_posix - start_posix
  if difference = 0 then none
  else
    let percentage : ℚ := (point_difference : ℚ) / (difference : ℚ)
    if percentage > 9 / 10 then some 100
    else if percentage < 1 / 10 then some (-100)
    else some 20

/-- Embeds `Chart.add_buy_sell_point(label, quantity, price, date)` (`chart.py`
lines 117-202). The date string is parsed by an external collaborator; the
embedding takes the parsed Timestamp value `point_date`. Out-of-range points
return the chart unchanged. In range, a one-point scatter trace is appended
and an annotation is added at the offset computed by `__get_note_position_x`;
`none` is the ZeroDivisionError propagating out of that computation (at that
point the source has already appended the trace, but the call raises, so no
chart value is returned). -/
def add_buy_sell_point (c : Chart) (label : String) (quantity price : ℚ)
    (point_date : ℤ) : Option Chart :=
  if point_date < c.start_date ∨ c.end_date < point_date then some c
  else
    let color_point := if label = "b" ∨ label = "B" then "#bbdc86" else "#e70039"
    let figure_point := Trace.scatter [point_date] [price] color_point
    let fig1 : Figure := { c.fig with data := c.fig.data ++ [figure_point] }
    match __get_note_position_x (Int.fdiv c.start_date (10 ^ 9))
        (Int.fdiv c.end_date (10 ^ 9)) (Int.fdiv point_date (10 ^ 9)) with
    | none => none
    | some pos =>
      some { c with fig :=
        { fig1 with annotations := fig1.annotations ++ [
            { x := point_date, y := price, label := label, quantity := quantity,
              price := price, ax := pos }] } }

/-- Embeds `Chart.delete_buy_sell_points` (`chart.py` lines 204-220): keep only
the first two traces (`fig.data = [fig.data[0], fig.data[1]]`) and clear the
annotation list. `none` is the IndexError raised when the figure has fewer
than two traces. -/
def delete_buy_sell_points (c : Chart) : Option Chart :=
  match c.fig.data with
  | t0 :: t1 :: _ =>
    some { c with fig := { data := [t0, t1], annotations := [] } }
  | _ => none

/-! ## Helper lemmas about the sorted-scan structure of the selector -/

/-- Unfolding of the selector at an empty forced interval. -/
lemma get_optimal_interval_empty_eq (intervals : List (String × ℕ)) :
    _get_optimal_interval "" intervals =
      match (sortedIntervals intervals).find? (fun p => decide (optimal_size < p.2)) with
      | some p => some (some p.1)
      | none =>
        match (sortedIntervals intervals).getLast? with
        | none => none
        | some p => if p.2 = 0 then some none else some (some p.1) := rfl

/-- In a list pairwise ordered by count, the first element found over the
target is over the target, belongs to the list, and has the least count among
all over-target elements. -/
lemma find?_min_of_pairwise {l : List (String × ℕ)} (hs : l.Pairwise countLE)
    {p : String × ℕ}
    (hp : l.find? (fun x => decide (optimal_size < x.2)) = some p) :
    optimal_size < p.2 ∧ p ∈ l ∧ ∀ q ∈ l, optimal_size < q.2 → p.2 ≤ q.2 := by
  induction l with
  | nil => simp at hp
  | cons a t ih =>
    rw [List.pairwise_cons] at hs
    by_cases ha : optimal_size < a.2
    · rw [List.find?_cons_of_pos _ (by simpa using ha)] at hp
      obtain rfl : a = p := by injection hp
      refine ⟨ha, List.mem_cons_self a t, ?_⟩
      intro q hq _
      rcases List.mem_cons.mp hq with rfl | hq
      · exact le_refl _
      · exact hs.1 q hq
    · rw [List.find?_cons_of_neg _ (by simpa using ha)] at hp
      obtain ⟨h1, h2, h3⟩ := ih hs.2 hp
      refine ⟨h1, List.mem_cons_of_mem _ h2, ?_⟩
      intro q hq hq500
      rcases List.mem_cons.mp hq with rfl | hq
      · exact absurd hq500 ha
      · exact h3 q hq hq500

/-- In a list pairwise ordered by count, the last element has the greatest
count. -/
lemma le_getLast_of_pairwise : ∀ {l : List (String × ℕ)}, l.Pairwise countLE →
    ∀ (hne : l ≠ []) (q : String × ℕ), q ∈ l → q.2 ≤ (l.getLast hne).2 := by
  intro l
  induction l with
  | nil => intro _ hne; exact absurd rfl hne
  | cons a t ih =>
    intro hs hne q hq
    rw [List.pairwise_cons] at hs
    cases t with
    | nil =>
      obtain rfl : q = a := List.mem_singleton.mp hq
      exact le_refl _
    | cons b t' =>
      rw [List.getLast_cons (List.cons_ne_nil b t')]
      rcases List.mem_cons.mp hq with rfl | hq
      · exact hs.1 _ (List.getLast_mem (List.cons_ne_nil b t'))
      · exact ih hs.2 (List.cons_ne_nil b t') q hq

/-- Two entries of a mapping with no duplicate keys that share a key are the
same entry. -/
lemma eq_of_fst_eq_of_nodup_keys : ∀ {l : List (String × ℕ)},
    (l.map Prod.fst).Nodup →
    ∀ {p q : String × ℕ}, p ∈ l → q ∈ l → p.1 = q.1 → p = q := by
  intro l
  induction l with
  | nil => intro _ p q hp; simp at hp
  | cons a t ih =>
    intro hnd p q hp hq hk
    rw [List.map_cons, List.nodup_cons] at hnd
    rcases List.mem_cons.mp hp with hpa | hpt <;> rcases List.mem_cons.mp hq with hqa | hqt
    · rw [hpa, hqa]
    · have hm : q.1 ∈ t.map Prod.fst := List.mem_map_of_mem Prod.fst hqt
      rw [← hk, hpa] at hm
      exact absurd hm hnd.1
    · have hm : p.1 ∈ t.map Prod.fst := List.mem_map_of_mem Prod.fst hpt
      rw [hk, hqa] at hm
      exact absurd hm hnd.1
    · exact ih hnd.2 hpt hqt hk

/-- A duplicate-free scan never returns an element that a qualifying element
precedes: if `[p, q]` occurs in order in `l` and `p` already satisfies the
predicate, `find?` does not answer `q`. -/
lemma find?_ne_of_earlier {f : String × ℕ → Bool} :
    ∀ {l : List (String × ℕ)} {p q : String × ℕ}, [p, q].Sublist l →
    f p = true → l.Nodup → l.find? f ≠ some q := by
  intro l
  induction l with
  | nil => intro p q hsub; simp at hsub
  | cons a t ih =>
    intro p q hsub hfp hnd
    rw [List.nodup_cons] at hnd
    cases hsub with
    | cons _ h =>
      have hqt : q ∈ t := h.subset (by simp)
      by_cases hfa : f a = true
      · rw [List.find?_cons_of_pos _ hfa]
        intro hcon
        obtain rfl : a = q := by injection hcon
        exact hnd.1 hqt
      · rw [List.find?_cons_of_neg _ hfa]
        exact ih h hfp hnd.2
    | cons₂ _ h =>
      rw [List.find?_cons_of_pos _ hfp]
      intro hcon
      obtain rfl : a = q := by injection hcon
      exact hnd.1 (h.subset (by simp))

/-- When the seconds range is non-degenerate the offset computation returns a
value (no ZeroDivisionError). -/
lemma note_position_x_isSome {s e t : ℤ} (h : e - s ≠ 0) :
    ∃ pos : ℤ, __get_note_position_x s e t = some pos := by
  simp only [__get_note_position_x, if_neg h]
  split_ifs <;> exact ⟨_, rfl⟩

/-! ## Claims -/

/-- C1: for every bucket mapping in which the point count of at least one
bucket is strictly greater than 500, the selector with an empty forced interval returns
a label whose count is strictly greater than 500, and that count is the
smallest among all buckets whose count exceeds 500. -/
theorem C1_selects_least_count_above_target (buckets : List (String × ℕ))
    (hex : ∃ p ∈ buckets, 500 < p.2) :
    ∃ p ∈ buckets, _get_optimal_interval "" buckets = some (some p.1) ∧
      500 < p.2 ∧ ∀ q ∈ buckets, 500 < q.2 → p.2 ≤ q.2 := by
  obtain ⟨w, hw, hw500⟩ := hex
  have hmem : w ∈ sortedIntervals buckets := by
    simpa [sortedIntervals, List.mem_insertionSort] using hw
  cases hfind : (sortedIntervals buckets).find? (fun p => decide (optimal_size < p.2)) with
  | none =>
    rw [List.find?_eq_none] at hfind
    exact absurd (by simpa [optimal_size] using hw500) (by simpa using hfind w hmem)
  | some p =>
    obtain ⟨h1, h2, h3⟩ := find?_min_of_pairwise (List.sorted_insertionSort countLE buckets) hfind
    refine ⟨p, ?_, ?_, h1, ?_⟩
    · simpa [sortedIntervals, List.mem_insertionSort] using h2
    · rw [get_optimal_interval_empty_eq, hfind]
    · intro q hq hq500
      exact h3 q (by simpa [sortedIntervals, List.mem_insertionSort] using hq) hq500

theorem C1_witness :
    ∃ p ∈ [("60", 700), ("180", 600)],
      _get_optimal_interval "" [("60", 700), ("180", 600)] = some (some p.1) ∧
      500 < p.2 ∧ ∀ q ∈ [("60", 700), ("180", 600)], 500 < q.2 → p.2 ≤ q.2 :=
  C1_selects_least_count_above_target [("60", 700), ("180", 600)]
    ⟨("60", 700), by simp, by norm_num⟩

/-- C2: for every bucket mapping in which the point count of every bucket is
at most 500 and the count of some bucket is strictly positive, the selector with an
empty forced interval returns a label whose count is the maximum. -/
theorem C2_selects_max_count_when_none_above_target (buckets : List (String × ℕ))
    (hall : ∀ p ∈ buckets, p.2 ≤ 500)
    (hpos : ∃ p ∈ buckets, 0 < p.2) :
    ∃ p ∈ buckets, _get_optimal_interval "" buckets = some (some p.1) ∧
      ∀ q ∈ buckets, q.2 ≤ p.2 := by
  obtain ⟨w, hw, hwpos⟩ := hpos
  have hsne : sortedIntervals buckets ≠ [] := by
    have hbne : buckets ≠ [] := by rintro rfl; simp at hw
    have hlen := List.length_insertionSort countLE buckets
    intro hnil
    rw [sortedIntervals] at hnil
    rw [hnil] at hlen
    exact hbne (List.eq_nil_of_length_eq_zero hlen.symm)
  have hfind : (sortedIntervals buckets).find? (fun p => decide (optimal_size < p.2)) = none := by
    rw [List.find?_eq_none]
    intro x hx
    have hxb : x ∈ buckets := by simpa [sortedIntervals, List.mem_insertionSort] using hx
    simpa [optimal_size] using Nat.not_lt.mpr (hall x hxb)
  have hlast := List.getLast?_eq_getLast (sortedIntervals buckets) hsne
  have hpm : (sortedIntervals buckets).getLast hsne ∈ buckets :=
    (List.mem_insertionSort countLE).mp (List.getLast_mem hsne)
  have hmax : ∀ q ∈ buckets, q.2 ≤ ((sortedIntervals buckets).getLast hsne).2 := by
    intro q hq
    exact le_getLast_of_pairwise (List.sorted_insertionSort countLE buckets) hsne q
      (by simpa [sortedIntervals, List.mem_insertionSort] using hq)
  have hppos : 0 < ((sortedIntervals buckets).getLast hsne).2 :=
    Nat.lt_of_lt_of_le hwpos (hmax w hw)
  refine ⟨(sortedIntervals buckets).getLast hsne, hpm, ?_, hmax⟩
  rw [get_optimal_interval_empty_eq, hfind, hlast]
  simp [Nat.pos_iff_ne_zero.mp hppos]

theorem C2_witness :
    ∃ p ∈ [("60", 400), ("180", 100)],
      _get_optimal_interval "" [("60", 400), ("180", 100)] = some (some p.1) ∧
      ∀ q ∈ [("60", 400), ("180", 100)], q.2 ≤ p.2 :=
  C2_selects_max_count_when_none_above_target [("60", 400), ("180", 100)]
    (by decide) ⟨("60", 400), by simp, by norm_num⟩

/-- C4: for every non-empty forced interval string and every bucket mapping,
the selector returns the forced string unchanged, with no check that it is a
key of the mapping. -/
theorem C4_forced_interval_returned_unchanged (time : String) (h : time ≠ "")
    (buckets : List (String × ℕ)) :
    _get_optimal_interval time buckets = some (some time) := by
  simp [_get_optimal_interval, h]

theorem C4_witness :
    _get_optimal_interval "300" [("60", 0)] = some (some "300") :=
  C4_forced_interval_returned_unchanged "300" (by decide) [("60", 0)]

/-- C9: the English-identifier and Spanish-identifier interval selectors are
extensionally equal: for every forced-interval argument and every bucket
mapping, `_get_optimal_interval` of `chart.py` and `_calculo_intervalo_optimo`
of `grafico.py` return the same result. -/
theorem C9_english_spanish_selectors_agree (time : String)
    (intervals : List (String × ℕ)) :
    _calculo_intervalo_optimo time intervals = _get_optimal_interval time intervals :=
  rfl

/-- C3: for every non-empty bucket mapping in which the point count of every
bucket is zero, the selector with an empty forced interval returns the absence value
(Python `None`), and the enclosing data-fetch operation then raises the
empty-dataset error instead of returning candle data. -/
theorem C3_all_zero_gives_absence_and_empty_dataset_error
    (result : List (String × List Candle)) (hne : result ≠ [])
    (hz : ∀ p ∈ result, p.2 = []) :
    _get_optimal_interval "" (bucketCounts result) = some none ∧
    _get_ohlcv_data "" result = Except.error FetchError.emptyDataset := by
  have hzc : ∀ p ∈ bucketCounts result, p.2 = 0 := by
    intro p hp
    obtain ⟨q, hq, rfl⟩ := List.mem_map.mp hp
    simp [hz q hq]
  have hbne : bucketCounts result ≠ [] := by
    intro hnil
    exact hne (by simpa [bucketCounts] using hnil)
  have hsne : sortedIntervals (bucketCounts result) ≠ [] := by
    have hlen := List.length_insertionSort countLE (bucketCounts result)
    intro hnil
    rw [sortedIntervals] at hnil
    rw [hnil] at hlen
    exact hbne (List.eq_nil_of_length_eq_zero hlen.symm)
  have hfind : (sortedIntervals (bucketCounts result)).find?
      (fun p => decide (optimal_size < p.2)) = none := by
    rw [List.find?_eq_none]
    intro x hx
    have hxb : x ∈ bucketCounts result := (List.mem_insertionSort countLE).mp hx
    simp [hzc x hxb, optimal_size]
  have hlast := List.getLast?_eq_getLast (sortedIntervals (bucketCounts result)) hsne
  have hlz : ((sortedIntervals (bucketCounts result)).getLast hsne).2 = 0 :=
    hzc _ ((List.mem_insertionSort countLE).mp (List.getLast_mem hsne))
  have h1 : _get_optimal_interval "" (bucketCounts result) = some none := by
    rw [get_optimal_interval_empty_eq, hfind, hlast]
    simp [hlz]
  refine ⟨h1, ?_⟩
  unfold _get_ohlcv_data
  rw [h1]

theorem C3_witness :
    _get_optimal_interval "" (bucketCounts [("60", ([] : List Candle))]) = some none ∧
    _get_ohlcv_data "" [("60", ([] : List Candle))] = Except.error FetchError.emptyDataset :=
  C3_all_zero_gives_absence_and_empty_dataset_error [("60", [])] (by simp) (by simp)

/-- C5: for every point time and every date range with `range_start` strictly
less than `range_end` (all in POSIX seconds), the offset computation computes
`fraction = (range_end - point_time) / (range_end - range_start)` and returns
100 when the point is within the first 10% of the range (fraction above 0.9),
-100 when it is within the last 10% (fraction below 0.1), and 20 otherwise. -/
theorem C5_annotation_offset_piecewise (start_posix end_posix point_posix : ℤ)
    (h : start_posix < end_posix) :
    (((end_posix - point_posix : ℤ) : ℚ) / ((end_posix - start_posix : ℤ) : ℚ) > 9 / 10 →
      __get_note_position_x start_posix end_posix point_posix = some 100) ∧
    (((end_posix - point_posix : ℤ) : ℚ) / ((end_posix - start_posix : ℤ) : ℚ) < 1 / 10 →
      __get_note_position_x start_posix end_posix point_posix = some (-100)) ∧
    (1 / 10 ≤ ((end_posix - point_posix : ℤ) : ℚ) / ((end_posix - start_posix : ℤ) : ℚ) →
      ((end_posix - point_posix : ℤ) : ℚ) / ((end_posix - start_posix : ℤ) : ℚ) ≤ 9 / 10 →
      __get_note_position_x start_posix end_posix point_posix = some 20) := by
  have hd : end_posix - start_posix ≠ 0 := sub_ne_zero_of_ne (ne_of_gt h)
  simp only [__get_note_position_x, if_neg hd]
  refine ⟨?_, ?_, ?_⟩
  · intro hgt
    rw [if_pos hgt]
  · intro hlt
    rw [if_neg (not_lt.mpr (le_trans (le_of_lt hlt) (by norm_num))), if_pos hlt]
  · intro hge hle
    rw [if_neg (not_lt.mpr hle), if_neg (not_lt.mpr hge)]

theorem C5_witness :
    __get_note_position_x 0 1000 50 = some 100 ∧
    __get_note_position_x 0 1000 950 = some (-100) ∧
    __get_note_position_x 0 1000 500 = some 20 :=
  ⟨(C5_annotation_offset_piecewise 0 1000 50 (by norm_num)).1 (by norm_num),
   (C5_annotation_offset_piecewise 0 1000 950 (by norm_num)).2.1 (by norm_num),
   (C5_annotation_offset_piecewise 0 1000 500 (by norm_num)).2.2 (by norm_num) (by norm_num)⟩

/-- C6: when `range_start` equals `range_end` the offset computation performs
an unguarded division by zero: it does not return a value but propagates the
numeric exception (modelled as `none`); there is no degenerate-range guard. -/
theorem C6_degenerate_range_division_crash (range_posix point_posix : ℤ) :
    __get_note_position_x range_posix range_posix point_posix = none := by
  simp [__get_note_position_x]

/-- Chart whose start and end dates coincide, used in the C7 counterexample. -/
def chartDegenerate : Chart := chartOfData "btceur" 0 0 []

/-- C7 counterexample: on a chart whose start and end dates coincide, a marker
whose timestamp equals the boundary exactly passes the range check but is not
included: the unguarded division by zero inside `__get_note_position_x` makes
the call raise (result `none`), so the claim that a boundary marker is always
included in the rendered output fails at this input. -/
theorem C7_counterexample_boundary_marker_crash :
    add_buy_sell_point chartDegenerate "b" 1 40000 0 = none := by decide

/-- C7 amended: for every chart whose date range satisfies the DateRange
invariant (start at most end) and whose start and end differ after truncation
to POSIX seconds, a marker strictly before the start or strictly after the end
is silently dropped (the chart is returned unchanged, no error), while a
marker whose timestamp equals either boundary exactly is included: the call
returns the chart with the marker trace and its annotation appended. -/
theorem C7_marker_range_amended (c : Chart) (label : String)
    (quantity price : ℚ) (t : ℤ) (hse : c.start_date ≤ c.end_date)
    (hsec : Int.fdiv c.start_date (10 ^ 9) ≠ Int.fdiv c.end_date (10 ^ 9)) :
    ((t < c.start_date ∨ c.end_date < t) →
      add_buy_sell_point c label quantity price t = some c) ∧
    ((t = c.start_date ∨ t = c.end_date) →
      ∃ pos : ℤ, add_buy_sell_point c label quantity price t =
        some { c with fig :=
          { data := c.fig.data ++ [Trace.scatter [t] [price]
              (if label = "b" ∨ label = "B" then "#bbdc86" else "#e70039")],
            annotations := c.fig.annotations ++ [
              { x := t, y := price, label := label, quantity := quantity,
                price := price, ax := pos }] } }) := by
  constructor
  · intro hout
    simp only [add_buy_sell_point, if_pos hout]
  · intro hb
    have hin : ¬ (t < c.start_date ∨ c.end_date < t) := by
      rcases hb with rfl | rfl
      · push_neg
        exact ⟨le_refl _, hse⟩
      · push_neg
        exact ⟨hse, le_refl _⟩
    obtain ⟨pos, hpos⟩ := @note_position_x_isSome (Int.fdiv c.start_date (10 ^ 9))
      (Int.fdiv c.end_date (10 ^ 9)) (Int.fdiv t (10 ^ 9))
      (sub_ne_zero_of_ne (Ne.symm hsec))
    refine ⟨pos, ?_⟩
    simp only [add_buy_sell_point, if_neg hin, hpos]

/-- Chart with a one-day range and no candles, used in the C7 witness. -/
def chartDay : Chart := chartOfData "btceur" 0 (86400 * 10 ^ 9) []

theorem C7_witness :
    (add_buy_sell_point chartDay "b" 1 40000 (-5) = some chartDay) ∧
    ∃ pos : ℤ, add_buy_sell_point chartDay "s" 2 30000 0 =
      some { chartDay with fig :=
        { data := chartDay.fig.data ++ [Trace.scatter [0] [30000]
            (if "s" = "b" ∨ "s" = "B" then "#bbdc86" else "#e70039")],
          annotations := chartDay.fig.annotations ++ [
            { x := 0, y := 30000, label := "s", quantity := 2,
              price := 30000, ax := pos }] } } :=
  ⟨(C7_marker_range_amended chartDay "b" 1 40000 (-5) (by decide) (by decide)).1
      (Or.inl (by decide)),
   (C7_marker_range_amended chartDay "s" 2 30000 0 (by decide) (by decide)).2
      (Or.inl rfl)⟩

/-- C8: with no forced interval, the selector sorts bucket labels ascending by
point count with ties broken stably by the insertion order of the mapping: the
sorted list is pairwise ordered by count, any two entries with equal counts
keep their relative order, and when both entries of such a tie qualify
(count above 500) the later one is never the selected label. -/
theorem C8_stable_sort_tiebreak (buckets : List (String × ℕ)) (p q : String × ℕ)
    (hsub : [p, q].Sublist buckets) (heq : p.2 = q.2)
    (hnd : (buckets.map Prod.fst).Nodup) :
    (sortedIntervals buckets).Pairwise countLE ∧
    [p, q].Sublist (sortedIntervals buckets) ∧
    (500 < q.2 → _get_optimal_interval "" buckets ≠ some (some q.1)) := by
  have hsorted : (sortedIntervals buckets).Pairwise countLE :=
    List.sorted_insertionSort countLE buckets
  have hstable : [p, q].Sublist (sortedIntervals buckets) :=
    List.pair_sublist_insertionSort (le_of_eq heq) hsub
  refine ⟨hsorted, hstable, ?_⟩
  intro hq500 hres
  have hqs : q ∈ sortedIntervals buckets := hstable.subset (by simp)
  cases hfind : (sortedIntervals buckets).find? (fun x => decide (optimal_size < x.2)) with
  | none =>
    rw [List.find?_eq_none] at hfind
    exact hfind q hqs (by simpa [optimal_size] using hq500)
  | some r =>
    rw [get_optimal_interval_empty_eq, hfind] at hres
    have hr1 : r.1 = q.1 := by simpa using hres
    have hrb : r ∈ buckets :=
      (List.mem_insertionSort countLE).mp (List.mem_of_find?_eq_some hfind)
    have hqb : q ∈ buckets := hsub.subset (by simp)
    have hrq : r = q := eq_of_fst_eq_of_nodup_keys hnd hrb hqb hr1
    have hnds : (sortedIntervals buckets).Nodup :=
      ((List.perm_insertionSort countLE buckets).nodup_iff).mpr
        (List.Nodup.of_map Prod.fst hnd)
    exact find?_ne_of_earlier hstable
      (by simpa [optimal_size, heq] using hq500) hnds (hrq ▸ hfind)

theorem C8_witness :
    (sortedIntervals [("60", 600), ("180", 600), ("300", 10)]).Pairwise countLE ∧
    [("60", 600), ("180", 600)].Sublist
      (sortedIntervals [("60", 600), ("180", 600), ("300", 10)]) ∧
    (500 < 600 →
      _get_optimal_interval "" [("60", 600), ("180", 600), ("300", 10)] ≠
        some (some "180")) :=
  C8_stable_sort_tiebreak [("60", 600), ("180", 600), ("300", 10)]
    ("60", 600) ("180", 600) (by decide) rfl (by decide)

/-- C10: for every chart state whose figure holds the candlestick trace, the
volume trace, and then any further marker traces and annotations, deleting the
buy/sell points empties the annotation list and removes every trace after the
first two, leaving the first two traces unchanged. -/
theorem C10_delete_resets_figure (c : Chart) (t0 t1 : Trace) (rest : List Trace)
    (h : c.fig.data = t0 :: t1 :: rest) :
    delete_buy_sell_points c =
      some { c with fig := { data := [t0, t1], annotations := [] } } := by
  unfold delete_buy_sell_points
  rw [h]

/-- Chart state with the two base traces, one marker trace and one annotation,
used in the C10 witness. -/
def chartWithMarker : Chart :=
  { pair := "btceur", start_date := 0, end_date := 86400 * 10 ^ 9,
    fig := { data := [Trace.candlestick [] [] [] [] [], Trace.bar [] [],
                      Trace.scatter [5] [3] "#bbdc86"],
             annotations := [{ x := 5, y := 3, label := "b", quantity := 1,
                               price := 3, ax := 20 }] } }

theorem C10_witness :
    delete_buy_sell_points chartWithMarker =
      some { chartWithMarker with fig :=
        { data := [Trace.candlestick [] [] [] [] [], Trace.bar [] []],
          annotations := [] } } :=
  C10_delete_resets_figure chartWithMarker (Trace.candlestick [] [] [] [] [])
    (Trace.bar [] []) [Trace.scatter [5] [3] "#bbdc86"] rfl
